import Mathlib

/-!
Verification of the aggregation-cache-resilience core of the
kiro-multisearchengine repository (src/js/searchManager.js,
src/js/searchCache.js, src/js/errorHandler.js).

The JavaScript is shallowly embedded: JS `Map` objects become association
lists preserving insertion order (JS `Map` iteration order), `Date.now()`
becomes an explicit `now : Nat` parameter supplied to each operation,
promises/`async` become plain state-threading functions, and a thrown JS
error becomes an `Except` value.  Provider adapters, which live outside the
core, are abstracted by the capability record `AdapterSpec` (their `search`
outcome is a function of how many times `search` has been invoked during the
current aggregation call).  The concurrent fan-out of `searchAll` is modelled
by a deterministic fold over the registered engines: per-engine retry
counters are keyed by engine name and each engine touches only its own cache
key in the scenarios below, so the per-provider outcomes are independent of
interleaving.  Wall-clock time is held fixed during one aggregation call.
-/

/-! ## JavaScript string primitives

Lean core's `String.trim`/`toLower`/substring functions are implemented on
`Substring` positions and do not reduce in the kernel, so the JS string
operations used by the source are re-implemented on the character list. -/

/-- JS `String.prototype.trim`: strip leading and trailing whitespace. -/
def jsTrim (s : String) : String :=
  ⟨((s.data.dropWhile Char.isWhitespace).reverse.dropWhile Char.isWhitespace).reverse⟩

/-- JS `String.prototype.toLowerCase` (ASCII case folding suffices here). -/
def jsToLower (s : String) : String := ⟨s.data.map Char.toLower⟩

/-- Does `pat` occur at the head of `l`? -/
def prefixCheck [DecidableEq α] : List α → List α → Bool
  | [], _ => true
  | _ :: _, [] => false
  | p :: ps, c :: cs => decide (p = c) && prefixCheck ps cs

/-- Does `pat` occur anywhere in `l`? -/
def substrCheck [DecidableEq α] (pat : List α) : List α → Bool
  | [] => prefixCheck pat []
  | c :: cs => prefixCheck pat (c :: cs) || substrCheck pat cs

/-- JS `String.prototype.includes`. -/
def jsIncludes (s pat : String) : Bool := substrCheck pat.data s.data

/-! ## JavaScript `Map` primitives

A JS `Map` is modelled as an association list in insertion order:
`map.set` on a present key updates it in place, on an absent key appends;
`map.delete` removes the binding; iteration follows the list order. -/

/-- JS `Map.prototype.get` (`undefined` becomes `none`). -/
def mapGet [DecidableEq K] (m : List (K × V)) (k : K) : Option V :=
  (m.find? (fun p => decide (p.1 = k))).map (·.2)

/-- JS `Map.prototype.set`. -/
def mapSet [DecidableEq K] (m : List (K × V)) (k : K) (v : V) : List (K × V) :=
  if m.any (fun p => decide (p.1 = k)) then
    m.map (fun p => if p.1 = k then (k, v) else p)
  else m ++ [(k, v)]

/-- JS `Map.prototype.delete` (the removal; the returned boolean is unused here). -/
def mapDelete [DecidableEq K] (m : List (K × V)) (k : K) : List (K × V) :=
  m.filter (fun p => !(decide (p.1 = k)))

/-! ## SearchCache (src/js/searchCache.js)

`console.log` calls are pure tracing and are dropped.  The periodic cleanup
timer is environment scheduling; its body `cleanup` is modelled and can be
invoked at any time.  `calculateSize` uses `JSON.stringify` and is abstracted
by a `calcSize : D → Nat` parameter. -/

/-- One cache entry (constructed in `SearchCache.set`). -/
structure CacheEntry (D : Type) where
  data : D
  createdAt : Nat
  lastAccessed : Nat
  expiresAt : Nat
  size : Nat
deriving DecidableEq, Repr

/-- The cache state: the `Map`, the capacity bound and the default TTL. -/
structure SearchCache (K D : Type) where
  cache : List (K × CacheEntry D)
  maxSize : Nat
  defaultTTL : Nat
deriving DecidableEq, Repr

/-- The `SearchCache` constructor: empty map, `maxSize = 100`,
`defaultTTL = 5 * 60 * 1000` ms. -/
def SearchCache.new : SearchCache K D := ⟨[], 100, 5 * 60 * 1000⟩

/-- JS `generateCacheKey(engine, query, language)`:
`` `${engine}:${language}:${normalizedQuery}` `` with the query lower-cased
then trimmed. -/
def SearchCache.generateCacheKey (engine query language : String) : String :=
  engine ++ ":" ++ language ++ ":" ++ jsTrim (jsToLower query)

/-- Effective TTL of a `set` call: `ttl || this.defaultTTL`
(`null`/`0` fall back to the default). -/
def SearchCache.ttlValue (c : SearchCache K D) (ttl : Option Nat) : Nat :=
  match ttl with
  | none => c.defaultTTL
  | some t => if t = 0 then c.defaultTTL else t

/-- JS `get(key)`: miss on absent key; an entry past `expiresAt` is deleted and
reported as a miss; a hit refreshes `lastAccessed` and returns the data. -/
def SearchCache.get [DecidableEq K] (c : SearchCache K D) (key : K) (now : Nat) :
    Option D × SearchCache K D :=
  match mapGet c.cache key with
  | none => (none, c)
  | some entry =>
    if now > entry.expiresAt then
      (none, { c with cache := mapDelete c.cache key })
    else
      (some entry.data, { c with cache := mapSet c.cache key { entry with lastAccessed := now } })

/-- Body of `evictLRU`'s scan: fold of
`if (entry.lastAccessed < oldestTime) { oldestTime = …; oldestKey = key }`
with `oldestKey = null`, `oldestTime = Date.now()` initially. -/
def findOldest : List (K × CacheEntry D) → Option K → Nat → Option K
  | [], oldestKey, _ => oldestKey
  | (k, e) :: rest, oldestKey, oldestTime =>
    if e.lastAccessed < oldestTime then findOldest rest (some k) e.lastAccessed
    else findOldest rest oldestKey oldestTime

/-- JS `evictLRU()`: delete the entry with the strictly smallest `lastAccessed`
below `Date.now()` (first such entry in iteration order); if no entry
satisfies `lastAccessed < Date.now()`, nothing is deleted. -/
def SearchCache.evictLRU [DecidableEq K] (c : SearchCache K D) (now : Nat) : SearchCache K D :=
  match findOldest c.cache none now with
  | some k => { c with cache := mapDelete c.cache k }
  | none => c

/-- JS `set(key, data, ttl)`: build the entry, evict once if
`cache.size >= maxSize`, then `Map.set`. -/
def SearchCache.set [DecidableEq K] (c : SearchCache K D) (calcSize : D → Nat)
    (key : K) (data : D) (ttl : Option Nat) (now : Nat) : SearchCache K D :=
  let expiresAt := now + c.ttlValue ttl
  let entry : CacheEntry D := ⟨data, now, now, expiresAt, calcSize data⟩
  let c1 := if c.cache.length ≥ c.maxSize then c.evictLRU now else c
  { c1 with cache := mapSet c1.cache key entry }

/-- JS `delete(key)`. -/
def SearchCache.delete [DecidableEq K] (c : SearchCache K D) (key : K) : SearchCache K D :=
  { c with cache := mapDelete c.cache key }

/-- JS `clear()`. -/
def SearchCache.clear (c : SearchCache K D) : SearchCache K D := { c with cache := [] }

/-- JS `has(key)`: like `get` it eagerly deletes an expired entry, but does not
refresh `lastAccessed` on a hit. -/
def SearchCache.has [DecidableEq K] (c : SearchCache K D) (key : K) (now : Nat) :
    Bool × SearchCache K D :=
  match mapGet c.cache key with
  | none => (false, c)
  | some entry =>
    if now > entry.expiresAt then
      (false, { c with cache := mapDelete c.cache key })
    else (true, c)

/-- JS `cleanup()`: delete every entry with `now > expiresAt`. -/
def SearchCache.cleanup (c : SearchCache K D) (now : Nat) : SearchCache K D :=
  { c with cache := c.cache.filter (fun p => !(decide (now > p.2.expiresAt))) }

/-- JS `calculateHitRate()`: the share (in percent) of currently stored entries
that are not expired, and `0` on an empty cache.  Despite its name it
consults no hit/miss counters. -/
def SearchCache.calculateHitRate (c : SearchCache K D) (now : Nat) : ℚ :=
  let validEntries := (c.cache.filter (fun p => decide (now ≤ p.2.expiresAt))).length
  if c.cache.length > 0 then ((validEntries : ℚ) / (c.cache.length : ℚ)) * 100 else 0

/-- The record returned by `getStats()` (the nested `memoryUsage` object is
flattened into the two fields `memoryUsed`/`memoryPercentage`). -/
structure CacheStats where
  totalEntries : Nat
  validEntries : Nat
  expiredEntries : Nat
  totalSize : Nat
  maxSize : Nat
  hitRate : ℚ
  memoryUsed : Nat
  memoryPercentage : ℚ
deriving DecidableEq, Repr

/-- JS `getStats()`: the loop counts an entry as expired when
`now > entry.expiresAt` and as valid otherwise. -/
def SearchCache.getStats (c : SearchCache K D) (now : Nat) : CacheStats :=
  { totalEntries := c.cache.length
    validEntries := c.cache.countP (fun p => !(decide (now > p.2.expiresAt)))
    expiredEntries := c.cache.countP (fun p => decide (now > p.2.expiresAt))
    totalSize := (c.cache.map (fun p => p.2.size)).sum
    maxSize := c.maxSize
    hitRate := c.calculateHitRate now
    memoryUsed := (c.cache.map (fun p => p.2.size)).sum
    memoryPercentage :=
      if c.maxSize > 0 then ((c.cache.length : ℚ) / (c.maxSize : ℚ)) * 100 else 0 }

/-- One element of `exportData.entries` as consumed by `import`. -/
structure ExportEntry (K D : Type) where
  key : K
  data : D
  createdAt : Nat
  expiresAt : Nat
deriving DecidableEq, Repr

/-- JS `import(exportData)`: for each snapshot entry still valid at `now`,
`Map.set` a rebuilt entry (`lastAccessed := now`); expired snapshot entries
are skipped.  Returns the updated cache and the imported count.  Note that
no capacity check is performed. -/
def SearchCache.importSnapshot [DecidableEq K] (c : SearchCache K D) (calcSize : D → Nat)
    (entries : List (ExportEntry K D)) (now : Nat) : SearchCache K D × Nat :=
  entries.foldl
    (fun acc e =>
      if now ≤ e.expiresAt then
        let entry : CacheEntry D := ⟨e.data, e.createdAt, now, e.expiresAt, calcSize e.data⟩
        ({ acc.1 with cache := mapSet acc.1.cache e.key entry }, acc.2 + 1)
      else acc)
    (c, 0)

/-- The cache operations of claim C3 apart from `import` (modelled
separately by `SearchCache.importSnapshot`). -/
inductive CacheOp (K D : Type) where
  | set (k : K) (d : D) (ttl : Option Nat)
  | get (k : K)
  | has (k : K)
  | del (k : K)
  | clear
  | cleanup
deriving DecidableEq, Repr

/-- Run one cache operation at time `now` (the return values of `get`/`has`
are discarded; only the state evolution matters for the invariant). -/
def applyOp [DecidableEq K] (calcSize : D → Nat) (c : SearchCache K D)
    (op : CacheOp K D) (now : Nat) : SearchCache K D :=
  match op with
  | .set k d ttl => c.set calcSize k d ttl now
  | .get k => (c.get k now).2
  | .has k => (c.has k now).2
  | .del k => c.delete k
  | .clear => c.clear
  | .cleanup => c.cleanup now

/-- Run a sequence of cache operations, each paired with the `Date.now()`
reading at which it executes.  Nothing about the clock is assumed here:
`Date.now()` has millisecond resolution and may repeat across consecutive
operations, so the timestamps are data. -/
def runOps [DecidableEq K] (calcSize : D → Nat) :
    SearchCache K D → List (Nat × CacheOp K D) → SearchCache K D
  | c, [] => c
  | c, (t, op) :: rest => runOps calcSize (applyOp calcSize c op t) rest

/-! ## ErrorHandler (src/js/errorHandler.js)

JS error objects are modelled by `JsError` (`name`, `message`, and the
optional numeric `status` carried by HTTP failures).  `new Date()`
timestamps on log records are wall-clock metadata that feeds no control
flow and is omitted from `ErrorInfo`. -/

/-- A raised JS error as inspected by `handleEngineError`. -/
structure JsError where
  name : String
  message : String
  status : Option Nat := none
deriving DecidableEq, Repr

/-- Truthiness of `error.status` (`undefined`/`0` are falsy). -/
def JsError.statusTruthy (e : JsError) : Bool :=
  match e.status with
  | some s => decide (s ≠ 0)
  | none => false

/-- The `type` tags produced by the ErrorHandler's handlers. -/
inductive ErrType where
  | network
  | api
  | parsing
  | cors
  | timeout
  | general
deriving DecidableEq, Repr

/-- The `errorInfo` record built by the handlers (plus the `shouldRetry` /
`retryDelay` fields that `handleEngineError` may attach; absent fields are
falsy, i.e. `false` / `0`). -/
structure ErrorInfo where
  type : ErrType
  engine : String
  message : String
  statusCode : Option Nat := none
  userMessage : String
  shouldRetry : Bool := false
  retryDelay : Nat := 0
deriving DecidableEq, Repr

/-- The ErrorHandler's mutable state. -/
structure ErrorHandlerState where
  errorLog : List ErrorInfo
  maxLogSize : Nat
  retryAttempts : List (String × Nat)
  maxRetries : Nat
deriving DecidableEq, Repr

/-- The `ErrorHandler` constructor: empty log, `maxLogSize = 100`,
empty retry map, `maxRetries = 3`. -/
def ErrorHandlerState.new : ErrorHandlerState := ⟨[], 100, [], 3⟩

/-- JS `getEngineDisplayName(engine)`. -/
def getEngineDisplayName (engine : String) : String :=
  if engine = "google" then "Google"
  else if engine = "bing" then "Bing"
  else if engine = "yahoo" then "Yahoo Japan"
  else if engine = "duckduckgo" then "DuckDuckGo"
  else if engine = "youtube" then "YouTube"
  else if engine = "baidu" then "Baidu"
  else engine

/-- JS `logError(errorInfo)`: push, then `shift` once when the log exceeds
`maxLogSize`. -/
def ErrorHandlerState.logError (eh : ErrorHandlerState) (info : ErrorInfo) :
    ErrorHandlerState :=
  let log := eh.errorLog ++ [info]
  { eh with errorLog := if log.length > eh.maxLogSize then log.drop 1 else log }

/-- JS `getNetworkErrorMessage(error, engine)`. -/
def getNetworkErrorMessage (e : JsError) (engine : String) : String :=
  let engineName := getEngineDisplayName engine
  if jsIncludes e.message "Failed to fetch" then
    engineName ++ "に接続できませんでした。インターネット接続を確認してください。"
  else if jsIncludes e.message "timeout" then
    engineName ++ "への接続がタイムアウトしました。しばらく待ってから再試行してください。"
  else
    engineName ++ "でネットワークエラーが発生しました。"

/-- JS `getAPIErrorMessage(error, engine)` (the `switch` on the status code). -/
def getAPIErrorMessage (e : JsError) (engine : String) : String :=
  let engineName := getEngineDisplayName engine
  match e.status with
  | some 400 => engineName ++ "で不正なリクエストエラーが発生しました。検索キーワードを確認してください。"
  | some 401 => engineName ++ "で認証エラーが発生しました。"
  | some 403 => engineName ++ "でアクセスが拒否されました。"
  | some 404 => engineName ++ "で検索サービスが見つかりませんでした。"
  | some 429 => engineName ++ "でレート制限に達しました。しばらく待ってから再試行してください。"
  | some 500 => engineName ++ "でサーバーエラーが発生しました。"
  | some 503 => engineName ++ "のサービスが一時的に利用できません。"
  | some s => engineName ++ "でAPIエラーが発生しました (" ++ toString s ++ ")。"
  | none => engineName ++ "でAPIエラーが発生しました (null)。"

/-- JS `getParsingErrorMessage(error, engine)`. -/
def getParsingErrorMessage (engine : String) : String :=
  getEngineDisplayName engine ++ "の検索結果の解析中にエラーが発生しました。"

/-- JS `getCORSErrorMessage(error, engine)`. -/
def getCORSErrorMessage (engine : String) : String :=
  getEngineDisplayName engine ++
    "はブラウザのセキュリティ制限により直接アクセスできません。代替データを表示しています。"

/-- JS `handleNetworkError(error, engine)`. -/
def ErrorHandlerState.handleNetworkError (eh : ErrorHandlerState) (e : JsError)
    (engine : String) : ErrorInfo × ErrorHandlerState :=
  let info : ErrorInfo :=
    { type := .network, engine := engine, message := e.message
      userMessage := getNetworkErrorMessage e engine }
  (info, eh.logError info)

/-- JS `handleAPIError(error, engine)`. -/
def ErrorHandlerState.handleAPIError (eh : ErrorHandlerState) (e : JsError)
    (engine : String) : ErrorInfo × ErrorHandlerState :=
  let info : ErrorInfo :=
    { type := .api, engine := engine, message := e.message, statusCode := e.status
      userMessage := getAPIErrorMessage e engine }
  (info, eh.logError info)

/-- JS `handleParsingError(error, engine)`. -/
def ErrorHandlerState.handleParsingError (eh : ErrorHandlerState) (e : JsError)
    (engine : String) : ErrorInfo × ErrorHandlerState :=
  let info : ErrorInfo :=
    { type := .parsing, engine := engine, message := e.message
      userMessage := getParsingErrorMessage engine }
  (info, eh.logError info)

/-- JS `handleCORSError(error, engine)`. -/
def ErrorHandlerState.handleCORSError (eh : ErrorHandlerState) (e : JsError)
    (engine : String) : ErrorInfo × ErrorHandlerState :=
  let info : ErrorInfo :=
    { type := .cors, engine := engine, message := e.message
      userMessage := getCORSErrorMessage engine }
  (info, eh.logError info)

/-- JS `handleTimeoutError(error, engine)`. -/
def ErrorHandlerState.handleTimeoutError (eh : ErrorHandlerState) (e : JsError)
    (engine : String) : ErrorInfo × ErrorHandlerState :=
  let info : ErrorInfo :=
    { type := .timeout, engine := engine, message := e.message
      userMessage :=
        getEngineDisplayName engine ++
          "の検索がタイムアウトしました。ネットワーク接続を確認してください。" }
  (info, eh.logError info)

/-- JS `handleGeneralError(error, engine)` with a non-null engine (the
coordinator always passes one); `error.message || 'Unknown error'`. -/
def ErrorHandlerState.handleGeneralError (eh : ErrorHandlerState) (e : JsError)
    (engine : String) : ErrorInfo × ErrorHandlerState :=
  let info : ErrorInfo :=
    { type := .general, engine := engine
      message := if e.message = "" then "Unknown error" else e.message
      userMessage := getEngineDisplayName engine ++ "で予期しないエラーが発生しました。" }
  (info, eh.logError info)

/-- The dispatch chain at the top of `handleEngineError`, transcribed
condition by condition; the result names which handler runs. -/
def classifyError (e : JsError) : ErrType :=
  if e.name = "AbortError" || jsIncludes e.message "timeout" then .timeout
  else if jsIncludes e.message "CORS" || e.name = "TypeError" then .cors
  else if jsIncludes e.message "Failed to fetch" || jsIncludes e.message "Network" then .network
  else if e.statusTruthy then .api
  else .general

/-- The retry counter for one engine (`this.retryAttempts.get(engine) || 0`). -/
def ErrorHandlerState.getRetryAttempts (eh : ErrorHandlerState) (engine : String) : Nat :=
  (mapGet eh.retryAttempts engine).getD 0

/-- JS `shouldRetry(engine, errorType)`: the type must be one of
`network`/`timeout`/`api` and the engine's counter below `maxRetries`. -/
def ErrorHandlerState.shouldRetryB (eh : ErrorHandlerState) (engine : String)
    (t : ErrType) : Bool :=
  [ErrType.network, ErrType.timeout, ErrType.api].contains t &&
    decide (eh.getRetryAttempts engine < eh.maxRetries)

/-- JS `recordRetryAttempt(engine)`. -/
def ErrorHandlerState.recordRetryAttempt (eh : ErrorHandlerState) (engine : String) :
    ErrorHandlerState :=
  { eh with retryAttempts := mapSet eh.retryAttempts engine (eh.getRetryAttempts engine + 1) }

/-- JS `resetRetryAttempts(engine)` (a `Map.delete`). -/
def ErrorHandlerState.resetRetryAttempts (eh : ErrorHandlerState) (engine : String) :
    ErrorHandlerState :=
  { eh with retryAttempts := mapDelete eh.retryAttempts engine }

/-- JS `getRetryDelay(engine)`: `min(1000 * 2^attempts, 10000)` where
`attempts` is the engine's current counter. -/
def ErrorHandlerState.getRetryDelay (eh : ErrorHandlerState) (engine : String) : Nat :=
  min (1000 * 2 ^ eh.getRetryAttempts engine) 10000

/-- JS `handleEngineError(error, engine)`: classify, run the matching handler
(which logs), then attach `shouldRetry`/`retryDelay` when the retry test
passes.  (`handleParsingError` is unreachable from this dispatch.) -/
def ErrorHandlerState.handleEngineError (eh : ErrorHandlerState) (e : JsError)
    (engine : String) : ErrorInfo × ErrorHandlerState :=
  let r :=
    match classifyError e with
    | .timeout => eh.handleTimeoutError e engine
    | .cors => eh.handleCORSError e engine
    | .network => eh.handleNetworkError e engine
    | .api => eh.handleAPIError e engine
    | _ => eh.handleGeneralError e engine
  if r.2.shouldRetryB engine r.1.type then
    ({ r.1 with shouldRetry := true, retryDelay := r.2.getRetryDelay engine }, r.2)
  else r

/-- JS `clearErrorLog()`. -/
def ErrorHandlerState.clearErrorLog (eh : ErrorHandlerState) : ErrorHandlerState :=
  { eh with errorLog := [], retryAttempts := [] }

/-! ## SearchManager (src/js/searchManager.js)

`searchEngineWithErrorHandling` recurses through `retrySearch`; the
recursion is bounded because `shouldRetry` requires the engine's counter to
be below `maxRetries` and `retrySearch` increments it.  The Lean definition
makes that bound structural with a `gas` argument counting the retries the
engine may still consume; `searchAll` supplies `gas = maxRetries`, which is
an upper bound on the remaining retries from any counter value, and
`sewehLoop` below shows the out-of-gas branch is unreachable under that
budget.  UI calls (`displayEngineResults` / `displayEngineError`) and
`console` output are dropped; the `searchId` bookkeeping in
`activeSearches` / `searchHistory` feeds no control flow of the claims and
is omitted. -/

/-- The provider capability interface, abstracted: `search`, and the
optional `checkRateLimit` / `isAvailable` methods (`none` models an adapter
without the method), all as functions of how many times this engine has
been attempted in the current call. -/
structure AdapterSpec (D : Type) where
  checkRateLimit : Option (Nat → Bool)
  isAvailable : Option (Nat → Bool)
  search : Nat → Except JsError D

/-- Observable steps of one aggregation call, in order. -/
inductive Event where
  | cacheLookup (key : String)
  | providerSearch (engine : String) (attempt : Nat)
  | cacheStore (key : String)
  | retryWait (engine : String) (delayMs : Nat)
deriving DecidableEq, Repr

/-- The object `searchEngineWithErrorHandling` resolves with:
`{engine, status: 'fulfilled', value}` or `{engine, status: 'rejected',
reason}`. -/
structure Descriptor (D : Type) where
  engine : String
  status : String
  value : Option D := none
  reason : Option ErrorInfo := none
deriving DecidableEq, Repr

/-- Result of one engine's resolution chain: its settle descriptor, the
shared cache and error-handler state afterwards, and the emitted events. -/
structure SewehOut (D : Type) where
  desc : Descriptor D
  cache : SearchCache String D
  eh : ErrorHandlerState
  events : List Event
deriving Repr

/-- The error thrown by `throw new Error('レート制限に達しました')`. -/
def rateLimitError : JsError := ⟨"Error", "レート制限に達しました", none⟩

/-- The error thrown by `throw new Error('検索エンジンが利用できません')`. -/
def unavailableError : JsError := ⟨"Error", "検索エンジンが利用できません", none⟩

/-- JS `searchEngineWithErrorHandling(engine, query, language)` together with
the `retrySearch` it tail-calls: cache probe, rate-limit and availability
guards, the provider call, and the catch block that classifies the failure
and either schedules a retry (record the attempt, wait `retryDelay`,
re-enter) or resolves with the rejected descriptor.  `n` counts prior
attempts of this engine in this call; `gas` bounds the remaining retries
(see module comment). -/
def searchEngineWithErrorHandling (adapter : AdapterSpec D) (calcSize : D → Nat)
    (engine query language : String) (now : Nat) :
    Nat → Nat → SearchCache String D → ErrorHandlerState → SewehOut D
  | gas, n, cache, eh =>
    let key := SearchCache.generateCacheKey engine query language
    let probe := cache.get key now
    match probe.1 with
    | some cachedResult =>
      ⟨⟨engine, "fulfilled", some cachedResult, none⟩, probe.2, eh, [.cacheLookup key]⟩
    | none =>
      let rateLimitOk : Bool :=
        match adapter.checkRateLimit with
        | some f => f n
        | none => true
      let availableOk : Bool :=
        match adapter.isAvailable with
        | some f => f n
        | none => true
      let attempt : Except JsError D :=
        if !rateLimitOk then .error rateLimitError
        else if !availableOk then .error unavailableError
        else adapter.search n
      let baseEvents :=
        Event.cacheLookup key ::
          (if rateLimitOk && availableOk then [Event.providerSearch engine n] else [])
      match attempt with
      | .ok result =>
        let cache2 := probe.2.set calcSize key result none now
        let eh2 := eh.resetRetryAttempts engine
        ⟨⟨engine, "fulfilled", some result, none⟩, cache2, eh2,
          baseEvents ++ [.cacheStore key]⟩
      | .error e =>
        let handled := eh.handleEngineError e engine
        if handled.1.shouldRetry then
          match gas with
          | gas' + 1 =>
            let eh2 := handled.2.recordRetryAttempt engine
            let r := searchEngineWithErrorHandling adapter calcSize engine query language
              now gas' (n + 1) probe.2 eh2
            ⟨r.desc, r.cache, r.eh,
              baseEvents ++ [.retryWait engine handled.1.retryDelay] ++ r.events⟩
          | 0 =>
            -- out of gas; unreachable when `gas ≥ maxRetries - attempts`
            ⟨⟨engine, "rejected", none, some handled.1⟩, probe.2, handled.2, baseEvents⟩
        else
          ⟨⟨engine, "rejected", none, some handled.1⟩, probe.2, handled.2, baseEvents⟩

/-- One entry of the aggregated `engines` object. -/
structure EngineSlot (D : Type) where
  status : String
  data : Option (Descriptor D) := none
  error : Option JsError := none
  resultCount : Nat
  responseTime : Nat
deriving DecidableEq, Repr

/-- The aggregated `summary` object. -/
structure SearchSummary where
  total : Nat
  successful : Nat
  failed : Nat
  totalResults : Nat
deriving DecidableEq, Repr

/-- The value returned by `processSearchResults` (its `timestamp` is
wall-clock metadata and omitted). -/
structure ProcessedResults (D : Type) where
  query : String
  language : String
  totalTime : Nat
  engines : List (Option String × EngineSlot D)
  summary : SearchSummary
deriving DecidableEq, Repr

/-- An element of the array `Promise.allSettled` resolves with.  In
`searchAll` every element is `fulfilled` (the per-engine promises always
resolve, with a settle `Descriptor`); a `rejected` element would carry the
rejection reason. -/
inductive AllSettledResult (α : Type) where
  | fulfilled (value : α)
  | rejected (reason : JsError)
deriving DecidableEq, Repr

/-- JS `processSearchResults(results, …)` applied to what `searchAll` actually
passes it: the `Promise.allSettled` outcomes.  The duck-typed reads resolve
as follows on that input: `result.engine` is `undefined`, so the slot key is
`result.value && result.value.engine`, i.e. the descriptor's engine (or
`undefined` = `none` on a rejected element); `result.status === 'fulfilled'
&& result.value` holds for every fulfilled element (the descriptor object is
truthy); `result.value.results` and `result.value.responseTime` are
`undefined` on a descriptor, so `resultCount` is `0` and `responseTime` is
`0 || 0 = 0`, and `data` stores the whole descriptor. -/
def processSearchResults (results : List (AllSettledResult (Descriptor D)))
    (query language : String) (totalTime : Nat) : ProcessedResults D :=
  results.foldl
    (fun acc r =>
      let engineKey : Option String :=
        match r with
        | .fulfilled d => some d.engine
        | .rejected _ => none
      match r with
      | .fulfilled d =>
        let slot : EngineSlot D :=
          { status := "success", data := some d, resultCount := 0, responseTime := 0 }
        { acc with
          engines := mapSet acc.engines engineKey slot
          summary := { acc.summary with
            successful := acc.summary.successful + 1
            totalResults := acc.summary.totalResults + 0 } }
      | .rejected e =>
        let slot : EngineSlot D :=
          { status := "error", error := some e, resultCount := 0, responseTime := 0 }
        { acc with
          engines := mapSet acc.engines engineKey slot
          summary := { acc.summary with failed := acc.summary.failed + 1 } })
    { query := query, language := language, totalTime := totalTime, engines := []
      summary := { total := results.length, successful := 0, failed := 0, totalResults := 0 } }

/-- The error thrown by `throw new Error('検索クエリが空です')`. -/
def emptyQueryError : JsError := ⟨"Error", "検索クエリが空です", none⟩

/-- JS `searchAll(query, language)`.  Returns the processed results (or the
raised error), the shared cache and error-handler state afterwards, and the
event trace; on the invalid-query throw the state is untouched and the trace
is empty.  Each engine's resolution chain is run with the per-engine retry
budget `maxRetries` (see module comment on `gas`). -/
def searchAll (adapters : List (String × AdapterSpec D)) (calcSize : D → Nat)
    (query language : String) (cache : SearchCache String D)
    (eh : ErrorHandlerState) (now totalTime : Nat) :
    Except JsError (ProcessedResults D) × SearchCache String D × ErrorHandlerState ×
      List Event :=
  if query = "" ∨ jsTrim query = "" then
    (.error emptyQueryError, cache, eh, [])
  else
    let settled := adapters.foldl
      (fun (acc : List (Descriptor D) × SearchCache String D × ErrorHandlerState × List Event)
          p =>
        let r := searchEngineWithErrorHandling p.2 calcSize p.1 query language now
          acc.2.2.1.maxRetries 0 acc.2.1 acc.2.2.1
        (acc.1 ++ [r.desc], r.cache, r.eh, acc.2.2.2 ++ r.events))
      ([], cache, eh, [])
    let results := settled.1.map AllSettledResult.fulfilled
    (.ok (processSearchResults results query language totalTime),
      settled.2.1, settled.2.2.1, settled.2.2.2)

/-! ## Concrete scenario ingredients used by the witnesses below -/

/-- A transport failure (`message` contains `'Network'`, so it classifies as
`network`, which is retryable). -/
def netError : JsError := ⟨"Error", "Network error", none⟩

/-- A provider whose `search` fails with `netError` on every attempt. -/
def alwaysFails : AdapterSpec Nat := ⟨none, none, fun _ => .error netError⟩

/-- A provider whose `search` succeeds with payload `42` on every attempt. -/
def alwaysSucceeds : AdapterSpec Nat := ⟨none, none, fun _ => .ok 42⟩

/-- A provider whose `checkRateLimit()` reports `false` on every attempt. -/
def rateLimited : AdapterSpec Nat := ⟨some (fun _ => false), none, fun _ => .ok 0⟩

/-!
# Theorems

General lemmas about the embedded operations, then one theorem (plus
witness/counterexample where required) per claim.
-/

section MapLemmas

variable {K : Type} [DecidableEq K] {V : Type}

theorem mapGet_mapDelete (m : List (K × V)) (k : K) : mapGet (mapDelete m k) k = none := by
  have hfind : (mapDelete m k).find? (fun p => decide (p.1 = k)) = none := by
    rw [List.find?_eq_none]
    intro x hx
    have hx' := (List.mem_filter.mp hx).2
    simp only [Bool.not_eq_true'] at hx'
    simp [hx']
  simp [mapGet, hfind]

theorem mapGet_mapOverwrite (m : List (K × V)) (k : K) (v : V)
    (h : m.any (fun p => decide (p.1 = k)) = true) :
    mapGet (m.map (fun p => if p.1 = k then (k, v) else p)) k = some v := by
  induction m with
  | nil => simp at h
  | cons p rest ih =>
    by_cases hp : p.1 = k
    · simp only [List.map_cons, if_pos hp, mapGet]
      rw [List.find?_cons_of_pos _ (by simp)]
      rfl
    · have h' : rest.any (fun p => decide (p.1 = k)) = true := by
        simpa [hp] using h
      simp only [List.map_cons, if_neg hp, mapGet]
      rw [List.find?_cons_of_neg _ (by simpa using hp)]
      simpa [mapGet] using ih h'

theorem mapGet_mapSet_self (m : List (K × V)) (k : K) (v : V) :
    mapGet (mapSet m k v) k = some v := by
  unfold mapSet
  by_cases h : m.any (fun p => decide (p.1 = k)) = true
  · rw [if_pos h]
    exact mapGet_mapOverwrite m k v h
  · rw [if_neg h]
    have hnone : m.find? (fun p => decide (p.1 = k)) = none := by
      rw [List.find?_eq_none]
      intro x hx
      by_cases hxk : x.1 = k
      · exact absurd (List.any_eq_true.mpr ⟨x, hx, by simp [hxk]⟩) h
      · simp [hxk]
    simp [mapGet, List.find?_append, hnone]

theorem mapSet_length_le (m : List (K × V)) (k : K) (v : V) :
    (mapSet m k v).length ≤ m.length + 1 := by
  unfold mapSet
  split
  · simp
  · simp

theorem mapSet_length_of_any (m : List (K × V)) (k : K) (v : V)
    (h : m.any (fun p => decide (p.1 = k)) = true) :
    (mapSet m k v).length = m.length := by
  unfold mapSet
  rw [if_pos h]
  simp

theorem mapGet_any (m : List (K × V)) (k : K) (v : V) (h : mapGet m k = some v) :
    m.any (fun p => decide (p.1 = k)) = true := by
  unfold mapGet at h
  cases hf : m.find? (fun p => decide (p.1 = k)) with
  | none => rw [hf] at h; simp at h
  | some p =>
    have hpred := List.find?_some hf
    exact List.any_eq_true.mpr ⟨p, List.mem_of_find?_eq_some hf, hpred⟩

theorem mapSet_mem (m : List (K × V)) (k : K) (v : V) :
    ∀ p ∈ mapSet m k v, p = (k, v) ∨ p ∈ m := by
  unfold mapSet
  split
  · intro p hp
    rcases List.mem_map.mp hp with ⟨q, hq, hEq⟩
    by_cases hqk : q.1 = k
    · left; rw [← hEq, if_pos hqk]
    · right; rw [← hEq, if_neg hqk]; exact hq
  · intro p hp
    rcases List.mem_append.mp hp with h | h
    · right; exact h
    · left; simpa using h

end MapLemmas

section CacheLemmas

variable {K D : Type} [DecidableEq K]

theorem get_miss_stable (c : SearchCache K D) (key : K) (now : Nat)
    (h : (c.get key now).1 = none) : (((c.get key now).2).get key now).1 = none := by
  cases hm : mapGet c.cache key with
  | none => simp [SearchCache.get, hm]
  | some entry =>
    by_cases he : now > entry.expiresAt
    · simp [SearchCache.get, hm, he, mapGet_mapDelete]
    · exfalso
      simp [SearchCache.get, hm, he] at h

theorem findOldest_acc_some (l : List (K × CacheEntry D)) (k : K) (t : Nat) :
    ∃ k', findOldest l (some k) t = some k' := by
  induction l generalizing k t with
  | nil => exact ⟨k, rfl⟩
  | cons p rest ih =>
    obtain ⟨k₁, e₁⟩ := p
    unfold findOldest
    by_cases h : e₁.lastAccessed < t
    · rw [if_pos h]; exact ih k₁ e₁.lastAccessed
    · rw [if_neg h]; exact ih k t

theorem findOldest_none_some (l : List (K × CacheEntry D)) (t : Nat)
    (h : ∃ p ∈ l, p.2.lastAccessed < t) : ∃ k', findOldest l none t = some k' := by
  induction l generalizing t with
  | nil => simp at h
  | cons p rest ih =>
    obtain ⟨k₁, e₁⟩ := p
    unfold findOldest
    by_cases hlt : e₁.lastAccessed < t
    · rw [if_pos hlt]; exact findOldest_acc_some rest k₁ e₁.lastAccessed
    · rw [if_neg hlt]
      apply ih
      rcases h with ⟨q, hq, hqt⟩
      rcases List.mem_cons.mp hq with rfl | hq'
      · exact absurd hqt hlt
      · exact ⟨q, hq', hqt⟩

theorem findOldest_mem (l : List (K × CacheEntry D)) :
    ∀ (acc : Option K) (t : Nat) (k' : K), findOldest l acc t = some k' →
      acc = some k' ∨ k' ∈ l.map Prod.fst := by
  induction l with
  | nil => intro acc t k' h; left; exact h
  | cons p rest ih =>
    intro acc t k' h
    obtain ⟨k₁, e₁⟩ := p
    unfold findOldest at h
    by_cases hlt : e₁.lastAccessed < t
    · rw [if_pos hlt] at h
      rcases ih (some k₁) e₁.lastAccessed k' h with h1 | h2
      · right; simp at h1; simp [h1]
      · right; simp [h2]
    · rw [if_neg hlt] at h
      rcases ih acc t k' h with h1 | h2
      · left; exact h1
      · right; simp [h2]

theorem mapDelete_length_lt (m : List (K × V)) (k : K) (h : k ∈ m.map Prod.fst) :
    (mapDelete m k).length < m.length := by
  unfold mapDelete
  rw [List.length_filter_lt_length_iff_exists]
  rcases List.mem_map.mp h with ⟨p, hp, hk⟩
  exact ⟨p, hp, by simp [hk]⟩

theorem evictLRU_length_lt (c : SearchCache K D) (now : Nat) (hne : c.cache ≠ [])
    (hall : ∀ p ∈ c.cache, p.2.lastAccessed < now) :
    (c.evictLRU now).cache.length < c.cache.length := by
  obtain ⟨p, hp⟩ := List.exists_mem_of_ne_nil c.cache hne
  obtain ⟨k', hk'⟩ := findOldest_none_some c.cache now ⟨p, hp, hall p hp⟩
  unfold SearchCache.evictLRU
  rw [hk']
  rcases findOldest_mem c.cache none now k' hk' with h | h
  · simp at h
  · exact mapDelete_length_lt c.cache k' h

theorem findOldest_stall (l : List (K × CacheEntry D)) (acc : Option K) (t : Nat)
    (h : ∀ q ∈ l, ¬ q.2.lastAccessed < t) : findOldest l acc t = acc := by
  induction l with
  | nil => rfl
  | cons p rest ih =>
    unfold findOldest
    obtain ⟨k₁, e₁⟩ := p
    rw [if_neg (h (k₁, e₁) (List.mem_cons_self _ _))]
    exact ih (fun q hq => h q (List.mem_cons_of_mem _ hq))

theorem findOldest_unique_min (l : List (K × CacheEntry D)) (p₀ : K × CacheEntry D) :
    ∀ (acc : Option K) (t : Nat), p₀ ∈ l →
      (∀ q ∈ l, q ≠ p₀ → p₀.2.lastAccessed < q.2.lastAccessed) →
      p₀.2.lastAccessed < t →
      findOldest l acc t = some p₀.1 := by
  induction l with
  | nil => intro acc t h; simp at h
  | cons p rest ih =>
    intro acc t hmem hmin hlt
    unfold findOldest
    obtain ⟨k₁, e₁⟩ := p
    by_cases hp : (k₁, e₁) = p₀
    · rw [if_pos (by rw [hp]; exact hlt)]
      rw [findOldest_stall]
      · rw [hp]
      · intro q hq
        by_cases hqp : q = p₀
        · rw [hqp, hp]; omega
        · have := hmin q (List.mem_cons_of_mem _ hq) hqp
          rw [hp]; omega
    · have hmem' : p₀ ∈ rest := by
        rcases List.mem_cons.mp hmem with h | h
        · exact absurd h.symm hp
        · exact h
      have hmin' : ∀ q ∈ rest, q ≠ p₀ → p₀.2.lastAccessed < q.2.lastAccessed :=
        fun q hq => hmin q (List.mem_cons_of_mem _ hq)
      have hhead := hmin (k₁, e₁) (List.mem_cons_self _ _) hp
      by_cases hlt₁ : e₁.lastAccessed < t
      · rw [if_pos hlt₁]
        exact ih (some k₁) e₁.lastAccessed hmem' hmin' hhead
      · rw [if_neg hlt₁]
        exact ih acc t hmem' hmin' hlt

theorem filter_ne_key_length (l : List (K × CacheEntry D)) (p₀ : K × CacheEntry D)
    (hnd : (l.map Prod.fst).Nodup) (hmem : p₀ ∈ l) :
    (l.filter (fun q => !(decide (q.1 = p₀.1)))).length + 1 = l.length := by
  induction l with
  | nil => simp at hmem
  | cons p rest ih =>
    simp only [List.map_cons, List.nodup_cons] at hnd
    by_cases hp : p.1 = p₀.1
    · have hrest : rest.filter (fun q => !(decide (q.1 = p₀.1))) = rest := by
        rw [List.filter_eq_self]
        intro q hq
        have : q.1 ≠ p₀.1 := by
          intro hq1
          exact hnd.1 (hp ▸ hq1 ▸ List.mem_map_of_mem Prod.fst hq)
        simp [this]
      simp [List.filter_cons, hp, hrest]
    · have hmem' : p₀ ∈ rest := by
        rcases List.mem_cons.mp hmem with h | h
        · exact absurd (congrArg Prod.fst h.symm) hp
        · exact h
      have hkeep : (!(decide (p.1 = p₀.1))) = true := by simp [hp]
      rw [List.filter_cons, if_pos hkeep]
      have := ih hnd.2 hmem'
      simp only [List.length_cons]
      omega

end CacheLemmas

section ErrorHandlerLemmas

theorem logError_retryAttempts (eh : ErrorHandlerState) (info : ErrorInfo) :
    (eh.logError info).retryAttempts = eh.retryAttempts := rfl

theorem logError_maxRetries (eh : ErrorHandlerState) (info : ErrorInfo) :
    (eh.logError info).maxRetries = eh.maxRetries := rfl

theorem classifyError_ne_parsing (e : JsError) : classifyError e ≠ .parsing := by
  unfold classifyError
  repeat' split
  all_goals decide

theorem handleEngineError_retryAttempts (eh : ErrorHandlerState) (e : JsError)
    (engine : String) :
    ((eh.handleEngineError e engine).2).retryAttempts = eh.retryAttempts := by
  unfold ErrorHandlerState.handleEngineError
  cases hcl : classifyError e <;> dsimp only <;> split <;> rfl

theorem handleEngineError_maxRetries (eh : ErrorHandlerState) (e : JsError)
    (engine : String) :
    ((eh.handleEngineError e engine).2).maxRetries = eh.maxRetries := by
  unfold ErrorHandlerState.handleEngineError
  cases hcl : classifyError e <;> dsimp only <;> split <;> rfl

theorem shouldRetryB_congr (eh₁ eh₂ : ErrorHandlerState) (engine : String) (t : ErrType)
    (h₁ : eh₁.retryAttempts = eh₂.retryAttempts) (h₂ : eh₁.maxRetries = eh₂.maxRetries) :
    eh₁.shouldRetryB engine t = eh₂.shouldRetryB engine t := by
  unfold ErrorHandlerState.shouldRetryB ErrorHandlerState.getRetryAttempts
  rw [h₁, h₂]

theorem getRetryDelay_congr (eh₁ eh₂ : ErrorHandlerState) (engine : String)
    (h₁ : eh₁.retryAttempts = eh₂.retryAttempts) :
    eh₁.getRetryDelay engine = eh₂.getRetryDelay engine := by
  unfold ErrorHandlerState.getRetryDelay ErrorHandlerState.getRetryAttempts
  rw [h₁]

theorem handleEngineError_type (eh : ErrorHandlerState) (e : JsError) (engine : String) :
    ((eh.handleEngineError e engine).1).type = classifyError e := by
  unfold ErrorHandlerState.handleEngineError
  cases hcl : classifyError e <;>
    first
      | exact absurd hcl (classifyError_ne_parsing e)
      | (dsimp only; split <;> rfl)

theorem handleEngineError_shouldRetry (eh : ErrorHandlerState) (e : JsError)
    (engine : String) :
    ((eh.handleEngineError e engine).1).shouldRetry =
      eh.shouldRetryB engine (classifyError e) := by
  unfold ErrorHandlerState.handleEngineError
  cases hcl : classifyError e <;>
    first
      | exact absurd hcl (classifyError_ne_parsing e)
      | (dsimp only
         split <;>
           first
             | (rename_i hsp; exact hsp.symm)
             | (rename_i hsp
                simp only [Bool.not_eq_true] at hsp
                exact hsp.symm))

theorem handleEngineError_retryDelay (eh : ErrorHandlerState) (e : JsError)
    (engine : String)
    (h : eh.shouldRetryB engine (classifyError e) = true) :
    ((eh.handleEngineError e engine).1).retryDelay = eh.getRetryDelay engine := by
  unfold ErrorHandlerState.handleEngineError
  cases hcl : classifyError e <;>
    first
      | exact absurd hcl (classifyError_ne_parsing e)
      | (rw [hcl] at h
         dsimp only
         split <;>
           first
             | rfl
             | (rename_i hsp; exact absurd h hsp))

theorem recordRetryAttempt_getRetryAttempts (eh : ErrorHandlerState) (engine : String) :
    (eh.recordRetryAttempt engine).getRetryAttempts engine =
      eh.getRetryAttempts engine + 1 := by
  unfold ErrorHandlerState.recordRetryAttempt ErrorHandlerState.getRetryAttempts
  simp [mapGet_mapSet_self]

theorem recordRetryAttempt_maxRetries (eh : ErrorHandlerState) (engine : String) :
    (eh.recordRetryAttempt engine).maxRetries = eh.maxRetries := rfl

theorem resetRetryAttempts_getRetryAttempts (eh : ErrorHandlerState) (engine : String) :
    (eh.resetRetryAttempts engine).getRetryAttempts engine = 0 := by
  unfold ErrorHandlerState.resetRetryAttempts ErrorHandlerState.getRetryAttempts
  simp [mapGet_mapDelete]

theorem shouldRetryB_general (eh : ErrorHandlerState) (engine : String) :
    eh.shouldRetryB engine .general = false := by
  unfold ErrorHandlerState.shouldRetryB
  rfl

theorem shouldRetryB_lt (eh : ErrorHandlerState) (engine : String) (t : ErrType)
    (h : eh.shouldRetryB engine t = true) :
    eh.getRetryAttempts engine < eh.maxRetries := by
  unfold ErrorHandlerState.shouldRetryB at h
  simp only [Bool.and_eq_true, decide_eq_true_eq] at h
  exact h.2

theorem shouldRetryB_of_retryable (eh : ErrorHandlerState) (engine : String) (t : ErrType)
    (ht : t ∈ ([.network, .timeout, .api] : List ErrType))
    (hlt : eh.getRetryAttempts engine < eh.maxRetries) :
    eh.shouldRetryB engine t = true := by
  unfold ErrorHandlerState.shouldRetryB
  simp only [Bool.and_eq_true, decide_eq_true_eq]
  exact ⟨List.elem_eq_true_of_mem ht, hlt⟩

end ErrorHandlerLemmas

section CapacityInvariant

variable {K D : Type} [DecidableEq K]

theorem evictLRU_maxSize (c : SearchCache K D) (now : Nat) :
    (c.evictLRU now).maxSize = c.maxSize := by
  unfold SearchCache.evictLRU
  split <;> rfl

theorem evictLRU_subset (c : SearchCache K D) (now : Nat) :
    ∀ p ∈ (c.evictLRU now).cache, p ∈ c.cache := by
  unfold SearchCache.evictLRU
  split
  · intro p hp
    exact (List.mem_filter.mp hp).1
  · intro p hp
    exact hp

theorem applyOp_maxSize (calcSize : D → Nat) (c : SearchCache K D) (op : CacheOp K D)
    (now : Nat) : (applyOp calcSize c op now).maxSize = c.maxSize := by
  cases op <;>
    (simp only [applyOp, SearchCache.set, SearchCache.evictLRU, SearchCache.get,
        SearchCache.has, SearchCache.delete, SearchCache.clear, SearchCache.cleanup]
     repeat' split
     all_goals rfl)

theorem applyOp_inv (calcSize : D → Nat) (c : SearchCache K D) (op : CacheOp K D) (t : Nat)
    (hlen : c.cache.length ≤ c.maxSize) (hpos : 1 ≤ c.maxSize)
    (hacc : ∀ p ∈ c.cache, p.2.lastAccessed < t) :
    (applyOp calcSize c op t).cache.length ≤ c.maxSize ∧
      (∀ p ∈ (applyOp calcSize c op t).cache, p.2.lastAccessed ≤ t) := by
  cases op with
  | set k d ttl =>
    simp only [applyOp, SearchCache.set]
    by_cases hg : c.cache.length ≥ c.maxSize
    · rw [if_pos hg]
      have hne : c.cache ≠ [] := by
        intro hnil
        rw [hnil] at hg
        simp at hg
        omega
      have hev := evictLRU_length_lt c t hne hacc
      constructor
      · calc (mapSet (c.evictLRU t).cache k
              ⟨d, t, t, t + c.ttlValue ttl, calcSize d⟩).length
            ≤ (c.evictLRU t).cache.length + 1 := mapSet_length_le _ _ _
          _ ≤ c.cache.length := by omega
          _ ≤ c.maxSize := hlen
      · intro p hp
        rcases mapSet_mem _ _ _ p hp with h | h
        · rw [h]
        · have := hacc p (evictLRU_subset c t p h)
          omega
    · rw [if_neg hg]
      constructor
      · calc (mapSet c.cache k ⟨d, t, t, t + c.ttlValue ttl, calcSize d⟩).length
            ≤ c.cache.length + 1 := mapSet_length_le _ _ _
          _ ≤ c.maxSize := by omega
      · intro p hp
        rcases mapSet_mem _ _ _ p hp with h | h
        · rw [h]
        · have := hacc p h
          omega
  | get k =>
    simp only [applyOp]
    cases hm : mapGet c.cache k with
    | none =>
      simp only [SearchCache.get, hm]
      exact ⟨hlen, fun p hp => by have := hacc p hp; omega⟩
    | some entry =>
      by_cases he : t > entry.expiresAt
      · simp only [SearchCache.get, hm, if_pos he]
        constructor
        · calc (mapDelete c.cache k).length ≤ c.cache.length := List.length_filter_le _ _
            _ ≤ c.maxSize := hlen
        · intro p hp
          have := hacc p (List.mem_filter.mp hp).1
          omega
      · simp only [SearchCache.get, hm, if_neg he]
        constructor
        · rw [mapSet_length_of_any _ _ _ (mapGet_any _ _ _ hm)]
          exact hlen
        · intro p hp
          rcases mapSet_mem _ _ _ p hp with h | h
          · rw [h]
          · have := hacc p h
            omega
  | has k =>
    simp only [applyOp]
    cases hm : mapGet c.cache k with
    | none =>
      simp only [SearchCache.has, hm]
      exact ⟨hlen, fun p hp => by have := hacc p hp; omega⟩
    | some entry =>
      by_cases he : t > entry.expiresAt
      · simp only [SearchCache.has, hm, if_pos he]
        constructor
        · calc (mapDelete c.cache k).length ≤ c.cache.length := List.length_filter_le _ _
            _ ≤ c.maxSize := hlen
        · intro p hp
          have := hacc p (List.mem_filter.mp hp).1
          omega
      · simp only [SearchCache.has, hm, if_neg he]
        exact ⟨hlen, fun p hp => by have := hacc p hp; omega⟩
  | del k =>
    simp only [applyOp, SearchCache.delete]
    constructor
    · calc (mapDelete c.cache k).length ≤ c.cache.length := List.length_filter_le _ _
        _ ≤ c.maxSize := hlen
    · intro p hp
      have := hacc p (List.mem_filter.mp hp).1
      omega
  | clear =>
    simp only [applyOp, SearchCache.clear]
    exact ⟨by simp, by simp⟩
  | cleanup =>
    simp only [applyOp, SearchCache.cleanup]
    constructor
    · calc (c.cache.filter _).length ≤ c.cache.length := List.length_filter_le _ _
        _ ≤ c.maxSize := hlen
    · intro p hp
      have := hacc p (List.mem_filter.mp hp).1
      omega

theorem runOps_inv (calcSize : D → Nat) (ops : List (Nat × CacheOp K D)) :
    ∀ (c : SearchCache K D),
      c.cache.length ≤ c.maxSize → 1 ≤ c.maxSize →
      (∀ p ∈ c.cache, ∀ q ∈ ops, p.2.lastAccessed < q.1) →
      List.Pairwise (· < ·) (ops.map Prod.fst) →
      (runOps calcSize c ops).cache.length ≤ (runOps calcSize c ops).maxSize ∧
        (runOps calcSize c ops).maxSize = c.maxSize := by
  induction ops with
  | nil => intro c h1 _ _ _; exact ⟨h1, rfl⟩
  | cons top rest ih =>
    intro c h1 h2 hacc hpw
    obtain ⟨t, op⟩ := top
    rw [List.map_cons] at hpw
    have hhead := (List.pairwise_cons.mp hpw).1
    have htail := (List.pairwise_cons.mp hpw).2
    have hstep := applyOp_inv calcSize c op t h1 h2
      (fun p hp => hacc p hp (t, op) (List.mem_cons_self _ _))
    have hms := applyOp_maxSize calcSize c op t
    have hacc' : ∀ p ∈ (applyOp calcSize c op t).cache, ∀ q ∈ rest,
        p.2.lastAccessed < q.1 := by
      intro p hp q hq
      have h4 := hstep.2 p hp
      have h5 := hhead q.1 (List.mem_map_of_mem Prod.fst hq)
      omega
    have := ih (applyOp calcSize c op t) (hms ▸ hstep.1) (hms ▸ h2) hacc' htail
    unfold runOps
    exact ⟨this.1, this.2.trans hms⟩

end CapacityInvariant

theorem getRetryAttempts_congr (eh₁ eh₂ : ErrorHandlerState) (engine : String)
    (h : eh₁.retryAttempts = eh₂.retryAttempts) :
    eh₁.getRetryAttempts engine = eh₂.getRetryAttempts engine := by
  unfold ErrorHandlerState.getRetryAttempts
  rw [h]

theorem shouldRetryB_of_ge (eh : ErrorHandlerState) (engine : String) (t : ErrType)
    (h : eh.maxRetries ≤ eh.getRetryAttempts engine) :
    eh.shouldRetryB engine t = false := by
  unfold ErrorHandlerState.shouldRetryB
  simp [Nat.not_lt.mpr h]

theorem sewehFail_loop {D : Type} (adapter : AdapterSpec D) (calcSize : D → Nat)
    (engine query language : String) (now : Nat)
    (hrl : adapter.checkRateLimit = none) (hav : adapter.isAvailable = none)
    (herr : ∀ m, ∃ err, adapter.search m = .error err ∧
      classifyError err ∈ ([.network, .timeout, .api] : List ErrType)) :
    ∀ (k gas n : Nat) (cache : SearchCache String D) (eh : ErrorHandlerState),
      eh.maxRetries - eh.getRetryAttempts engine = k → k ≤ gas →
      (cache.get (SearchCache.generateCacheKey engine query language) now).1 = none →
      ((searchEngineWithErrorHandling adapter calcSize engine query language now gas n
          cache eh).events.countP (fun ev => match ev with
        | .providerSearch en _ => decide (en = engine)
        | _ => false) = k + 1 ∧
       (searchEngineWithErrorHandling adapter calcSize engine query language now gas n
          cache eh).events.filterMap (fun ev => match ev with
        | .retryWait en d => if en = engine then some d else none
        | _ => none) =
         (List.range k).map
           (fun i => min (1000 * 2 ^ (eh.getRetryAttempts engine + i)) 10000) ∧
       (searchEngineWithErrorHandling adapter calcSize engine query language now gas n
          cache eh).desc.status = "rejected" ∧
       (searchEngineWithErrorHandling adapter calcSize engine query language now gas n
          cache eh).eh.getRetryAttempts engine = eh.getRetryAttempts engine + k) := by
  intro k
  induction k with
  | zero =>
    intro gas n cache eh hk hgas hmiss
    obtain ⟨err, hsearch, _⟩ := herr n
    have ha : eh.maxRetries ≤ eh.getRetryAttempts engine := by omega
    have hsr : ((eh.handleEngineError err engine).1).shouldRetry = false := by
      rw [handleEngineError_shouldRetry, shouldRetryB_of_ge _ _ _ ha]
    rw [searchEngineWithErrorHandling]
    simp [hmiss, hrl, hav, hsearch, hsr]
    have h2 := handleEngineError_retryAttempts eh err engine
    simpa using getRetryAttempts_congr _ _ engine h2
  | succ k ih =>
    intro gas n cache eh hk hgas hmiss
    obtain ⟨err, hsearch, hretryable⟩ := herr n
    have ha : eh.getRetryAttempts engine < eh.maxRetries := by omega
    have hsrB : eh.shouldRetryB engine (classifyError err) = true :=
      shouldRetryB_of_retryable eh engine _ hretryable ha
    have hsr : ((eh.handleEngineError err engine).1).shouldRetry = true := by
      rw [handleEngineError_shouldRetry, hsrB]
    cases gas with
    | zero => omega
    | succ gas' =>
      have hattempts2 :
          (((eh.handleEngineError err engine).2).recordRetryAttempt engine).getRetryAttempts
            engine = eh.getRetryAttempts engine + 1 := by
        rw [recordRetryAttempt_getRetryAttempts,
          getRetryAttempts_congr _ eh engine (handleEngineError_retryAttempts eh err engine)]
      have hmax2 :
          (((eh.handleEngineError err engine).2).recordRetryAttempt engine).maxRetries =
            eh.maxRetries := by
        rw [recordRetryAttempt_maxRetries, handleEngineError_maxRetries]
      have hrec := ih gas' (n + 1)
        ((cache.get (SearchCache.generateCacheKey engine query language) now).2)
        (((eh.handleEngineError err engine).2).recordRetryAttempt engine)
        (by rw [hattempts2, hmax2]; omega) (by omega)
        (get_miss_stable cache _ now hmiss)
      have hdelay : ((eh.handleEngineError err engine).1).retryDelay =
          min (1000 * 2 ^ eh.getRetryAttempts engine) 10000 := by
        rw [handleEngineError_retryDelay eh err engine hsrB]
        rfl
      rw [searchEngineWithErrorHandling]
      simp only [hmiss, hrl, hav, hsearch, hsr, Bool.not_true, Bool.and_self,
        Bool.false_eq_true, if_false, if_true]
      refine ⟨?_, ?_, ?_, ?_⟩
      · simp only [List.countP_append, List.countP_cons]
        rw [hrec.1]
        simp
        all_goals omega
      · simp only [List.filterMap_append, List.filterMap_cons]
        rw [hrec.2.1, hattempts2, hdelay]
        simp [List.range_succ_eq_map, List.map_map]
        all_goals
          (intro i _
           have h3 : eh.getRetryAttempts engine + 1 + i =
               eh.getRetryAttempts engine + (i + 1) := by omega
           rw [h3])
      · exact hrec.2.2.1
      · rw [hrec.2.2.2, hattempts2]
        omega

/-- Claim C2: for every query that is empty or whitespace-only after
trimming, `searchAll` raises the invalid-query error before touching the
cache or any provider (state unchanged, empty event trace), and whenever the
trimmed query is non-empty the call resolves normally — the empty/whitespace
query is the only condition under which `searchAll` raises. -/
theorem C2_invalid_query_is_only_raise {D : Type}
    (adapters : List (String × AdapterSpec D)) (calcSize : D → Nat)
    (query language : String) (cache : SearchCache String D) (eh : ErrorHandlerState)
    (now totalTime : Nat) :
    (jsTrim query = "" →
      searchAll adapters calcSize query language cache eh now totalTime =
        (.error emptyQueryError, cache, eh, [])) ∧
    (jsTrim query ≠ "" →
      (searchAll adapters calcSize query language cache eh now totalTime).1.isOk = true) := by
  constructor
  · intro h
    unfold searchAll
    rw [if_pos (Or.inr h)]
  · intro h
    unfold searchAll
    rw [if_neg ?_]
    · rfl
    · rintro (h1 | h2)
      · exact h (by rw [h1]; decide)
      · exact h h2

theorem C2_invalid_query_is_only_raise_witness :
    (searchAll ([("a", alwaysSucceeds)]) (fun _ => 0) "   " "en" SearchCache.new
        ErrorHandlerState.new 0 0 =
      (.error emptyQueryError, SearchCache.new, ErrorHandlerState.new, [])) ∧
    (searchAll ([("a", alwaysSucceeds)]) (fun _ => 0) "cats" "en" SearchCache.new
        ErrorHandlerState.new 0 0).1.isOk = true :=
  ⟨(C2_invalid_query_is_only_raise [("a", alwaysSucceeds)] (fun _ => 0) "   " "en"
      SearchCache.new ErrorHandlerState.new 0 0).1 (by decide),
   (C2_invalid_query_is_only_raise [("a", alwaysSucceeds)] (fun _ => 0) "cats" "en"
      SearchCache.new ErrorHandlerState.new 0 0).2 (by decide)⟩

/-- Claim C7: `set(k, v)` followed immediately by `get(k)` returns `v`
(unconditionally — the effective TTL is added to `now`, so the entry cannot
already be past `expiresAt`); and on an entry whose `expiresAt` has passed,
`get` misses and removes the entry, and `has` reports it absent and removes
it likewise. -/
theorem C7_set_get_roundtrip_and_expiry {K D : Type} [DecidableEq K]
    (calcSize : D → Nat) (c cx : SearchCache K D) (k : K) (v : D) (ttl : Option Nat)
    (now : Nat) (e : CacheEntry D) :
    (((c.set calcSize k v ttl now).get k now).1 = some v) ∧
    (mapGet cx.cache k = some e → now > e.expiresAt →
      (cx.get k now).1 = none ∧ mapGet ((cx.get k now).2).cache k = none ∧
      (cx.has k now).1 = false ∧ mapGet ((cx.has k now).2).cache k = none) := by
  constructor
  · unfold SearchCache.set SearchCache.get
    dsimp only
    rw [mapGet_mapSet_self]
    dsimp only
    rw [if_neg (by omega)]
  · intro hm he
    refine ⟨?_, ?_, ?_, ?_⟩ <;>
      simp [SearchCache.get, SearchCache.has, hm, he, mapGet_mapDelete]

theorem C7_set_get_roundtrip_and_expiry_witness :
    ((((SearchCache.new : SearchCache Nat Nat).set (fun _ => 0) 1 7 none 5).get 1 5).1 =
      some 7) ∧
    (((⟨[(1, ⟨7, 0, 0, 3, 0⟩)], 100, 300000⟩ : SearchCache Nat Nat).get 1 5).1 = none ∧
      mapGet (((⟨[(1, ⟨7, 0, 0, 3, 0⟩)], 100, 300000⟩ : SearchCache Nat Nat).get 1 5).2).cache
        1 = none ∧
      ((⟨[(1, ⟨7, 0, 0, 3, 0⟩)], 100, 300000⟩ : SearchCache Nat Nat).has 1 5).1 = false ∧
      mapGet (((⟨[(1, ⟨7, 0, 0, 3, 0⟩)], 100, 300000⟩ : SearchCache Nat Nat).has 1 5).2).cache
        1 = none) :=
  ⟨(C7_set_get_roundtrip_and_expiry (fun _ => 0) SearchCache.new
      (⟨[(1, ⟨7, 0, 0, 3, 0⟩)], 100, 300000⟩ : SearchCache Nat Nat) 1 7 none 5
      ⟨7, 0, 0, 3, 0⟩).1,
   (C7_set_get_roundtrip_and_expiry (fun _ => 0) SearchCache.new
      (⟨[(1, ⟨7, 0, 0, 3, 0⟩)], 100, 300000⟩ : SearchCache Nat Nat) 1 7 none 5
      ⟨7, 0, 0, 3, 0⟩).2 (by decide) (by decide)⟩

/-- Claim C10 (implicit): `getStats().hitRate` is not a hit/miss ratio — the
cache tracks no lookup counters at all — but equals the percentage of
currently stored entries that are non-expired
(`validEntries / totalEntries * 100`), with `0` on an empty cache; hence a
nonempty cache holding only expired entries reports `0` regardless of how
many hits it served, and one holding only valid entries reports `100` even
if it was never read. -/
theorem C10_hitRate_is_validity_share {K D : Type} [DecidableEq K]
    (c : SearchCache K D) (now : Nat) :
    ((c.getStats now).hitRate =
      if (c.getStats now).totalEntries = 0 then 0
      else ((c.getStats now).validEntries : ℚ) / ((c.getStats now).totalEntries : ℚ) * 100) ∧
    (c.cache = [] → (c.getStats now).hitRate = 0) ∧
    (c.cache ≠ [] → (∀ p ∈ c.cache, now > p.2.expiresAt) → (c.getStats now).hitRate = 0) ∧
    (c.cache ≠ [] → (∀ p ∈ c.cache, now ≤ p.2.expiresAt) → (c.getStats now).hitRate = 100) := by
  have hbridge : c.cache.countP (fun p => !(decide (now > p.2.expiresAt))) =
      (c.cache.filter (fun p => decide (now ≤ p.2.expiresAt))).length := by
    rw [List.countP_eq_length_filter]
    congr 1
    apply List.filter_congr
    intro p _
    by_cases h : now > p.2.expiresAt
    · simp [h, Nat.not_le.mpr h]
    · simp [h, Nat.not_lt.mp h]
  refine ⟨?_, ?_, ?_, ?_⟩
  · show c.calculateHitRate now = _
    unfold SearchCache.calculateHitRate
    by_cases h : c.cache.length = 0
    · simp [SearchCache.getStats, h]
    · have hpos : 0 < c.cache.length := Nat.pos_of_ne_zero h
      simp only [SearchCache.getStats, hbridge, if_pos hpos, if_neg h]
  · intro h
    show c.calculateHitRate now = 0
    unfold SearchCache.calculateHitRate
    simp [h]
  · intro hne hall
    show c.calculateHitRate now = 0
    unfold SearchCache.calculateHitRate
    have hfil : c.cache.filter (fun p => decide (now ≤ p.2.expiresAt)) = [] := by
      rw [List.filter_eq_nil_iff]
      intro p hp
      simp [Nat.not_le.mpr (hall p hp)]
    rw [if_pos (List.length_pos.mpr hne), hfil]
    simp
  · intro hne hall
    show c.calculateHitRate now = 100
    unfold SearchCache.calculateHitRate
    have hfil : c.cache.filter (fun p => decide (now ≤ p.2.expiresAt)) = c.cache := by
      rw [List.filter_eq_self]
      intro p hp
      simp [hall p hp]
    have hlen : (c.cache.length : ℚ) ≠ 0 := by
      exact_mod_cast Nat.pos_iff_ne_zero.mp (List.length_pos.mpr hne)
    rw [if_pos (List.length_pos.mpr hne), hfil, div_self hlen, one_mul]

theorem C10_hitRate_is_validity_share_witness :
    (((⟨[(1, ⟨7, 0, 0, 3, 0⟩)], 100, 300000⟩ : SearchCache Nat Nat).getStats 5).hitRate =
      if ((⟨[(1, ⟨7, 0, 0, 3, 0⟩)], 100, 300000⟩ : SearchCache Nat Nat).getStats 5).totalEntries
          = 0 then 0
      else
        ((((⟨[(1, ⟨7, 0, 0, 3, 0⟩)], 100, 300000⟩ : SearchCache Nat Nat).getStats
            5).validEntries : ℚ) /
          (((⟨[(1, ⟨7, 0, 0, 3, 0⟩)], 100, 300000⟩ : SearchCache Nat Nat).getStats
            5).totalEntries : ℚ)) * 100) ∧
    ((⟨[(1, ⟨7, 0, 0, 3, 0⟩)], 100, 300000⟩ : SearchCache Nat Nat).getStats 5).hitRate = 0 ∧
    ((⟨[(1, ⟨7, 0, 0, 9, 0⟩)], 100, 300000⟩ : SearchCache Nat Nat).getStats 5).hitRate = 100 :=
  ⟨(C10_hitRate_is_validity_share (⟨[(1, ⟨7, 0, 0, 3, 0⟩)], 100, 300000⟩ : SearchCache Nat Nat)
      5).1,
   (C10_hitRate_is_validity_share (⟨[(1, ⟨7, 0, 0, 3, 0⟩)], 100, 300000⟩ : SearchCache Nat Nat)
      5).2.2.1 (by decide) (by decide),
   (C10_hitRate_is_validity_share (⟨[(1, ⟨7, 0, 0, 9, 0⟩)], 100, 300000⟩ : SearchCache Nat Nat)
      5).2.2.2 (by decide) (by decide)⟩

set_option maxRecDepth 8000 in
/-- Claim C3 is false as stated, in two independent ways.  First, `import`
performs no capacity check, so importing 101 valid snapshot entries into an
empty cache (capacity 100) leaves 101 stored entries.  Second, `Date.now()`
has millisecond resolution and can repeat across operations: 101 `set`s of
distinct keys all executed at the same `Date.now()` reading also leave 101
entries, because `evictLRU` initializes `oldestTime = Date.now()` and its
strictly-less comparison never selects an entry whose `lastAccessed` equals
the current time, so the `set` at capacity evicts nothing. -/
theorem C3_import_exceeds_capacity_counterexample :
    (((SearchCache.new : SearchCache Nat Nat).importSnapshot (fun _ => 0)
        ((List.range 101).map (fun i => ⟨i, 0, 0, 1⟩)) 0).1.cache.length = 101) ∧
    ((runOps (fun _ => 0) (SearchCache.new : SearchCache Nat Nat)
        ((List.range 101).map (fun i => (0, CacheOp.set i 0 none)))).cache.length = 101) ∧
    (SearchCache.new : SearchCache Nat Nat).maxSize = 100 ∧ 100 < 101 := by
  refine ⟨by decide, by decide, by decide, by decide⟩

/-- Claim C3 (amended): for every sequence of `set`/`get`/`has`/`delete`/
`clear`/`cleanup` operations — i.e. every operation of the claim except
`import` — whose `Date.now()` readings strictly increase from one operation
to the next, starting from an empty cache, the number of stored entries
never exceeds the configured capacity (`maxSize`, default 100, unchanged by
these operations).  Both exclusions are forced by the counterexample:
`import` checks no capacity, and under a repeated (same-millisecond)
`Date.now()` reading `evictLRU` evicts nothing and `set` at capacity
overflows. -/
theorem C3_capacity_invariant_without_import {K D : Type} [DecidableEq K]
    (calcSize : D → Nat) (ops : List (Nat × CacheOp K D))
    (hinc : List.Pairwise (· < ·) (ops.map Prod.fst)) :
    (runOps calcSize (SearchCache.new : SearchCache K D) ops).cache.length ≤
      (runOps calcSize (SearchCache.new : SearchCache K D) ops).maxSize ∧
    (runOps calcSize (SearchCache.new : SearchCache K D) ops).maxSize = 100 := by
  have h := runOps_inv calcSize ops SearchCache.new
    (by simp [SearchCache.new]) (by simp [SearchCache.new]) (by simp [SearchCache.new]) hinc
  exact ⟨h.1, h.2⟩

theorem C3_capacity_invariant_without_import_witness :
    List.Pairwise (· < ·)
      (([(0, CacheOp.set 1 5 none), (1, CacheOp.get 1), (2, CacheOp.set 2 6 none),
          (3, CacheOp.cleanup)] : List (Nat × CacheOp Nat Nat)).map Prod.fst) ∧
    ((runOps (fun _ => 0) (SearchCache.new : SearchCache Nat Nat)
        [(0, CacheOp.set 1 5 none), (1, CacheOp.get 1), (2, CacheOp.set 2 6 none),
          (3, CacheOp.cleanup)]).cache.length ≤
      (runOps (fun _ => 0) (SearchCache.new : SearchCache Nat Nat)
        [(0, CacheOp.set 1 5 none), (1, CacheOp.get 1), (2, CacheOp.set 2 6 none),
          (3, CacheOp.cleanup)]).maxSize ∧
    (runOps (fun _ => 0) (SearchCache.new : SearchCache Nat Nat)
        [(0, CacheOp.set 1 5 none), (1, CacheOp.get 1), (2, CacheOp.set 2 6 none),
          (3, CacheOp.cleanup)]).maxSize = 100) :=
  ⟨by decide,
   C3_capacity_invariant_without_import (fun _ => 0)
     [(0, CacheOp.set 1 5 none), (1, CacheOp.get 1), (2, CacheOp.set 2 6 none),
       (3, CacheOp.cleanup)] (by decide)⟩

/-- Claim C4 is false as stated: its own capacity-2 scenario — insert `k1`,
`k2`, `k3` in that order with no intervening reads — retains all three keys
when the three `set`s fall in the same millisecond (one shared `Date.now()`
reading, here 5).  `evictLRU` initializes `oldestTime = Date.now()` and
compares `lastAccessed < oldestTime` strictly, so entries stamped at the
current time are never eviction candidates: nothing is evicted (in
particular not `k1`, the oldest) and the cache ends over capacity. -/
theorem C4_same_millisecond_no_eviction_counterexample :
    ((((⟨[], 2, 300000⟩ : SearchCache String Nat).set (fun _ => 0) "k1" 11 none 5).set
        (fun _ => 0) "k2" 22 none 5).set (fun _ => 0) "k3" 33 none 5).cache.map Prod.fst =
      ["k1", "k2", "k3"] ∧
    ((((⟨[], 2, 300000⟩ : SearchCache String Nat).set (fun _ => 0) "k1" 11 none 5).set
        (fun _ => 0) "k2" 22 none 5).set (fun _ => 0) "k3" 33 none 5).cache.length = 3 ∧
    (⟨[], 2, 300000⟩ : SearchCache String Nat).maxSize = 2 ∧ 2 < 3 := by
  refine ⟨by decide, by decide, by decide, by decide⟩

/-- Claim C4 (amended): on a cache holding exactly `maxSize` entries with
pairwise distinct keys, all last accessed strictly before the insertion's
`Date.now()` and with a strictly unique oldest `lastAccessed` entry `p₀`,
inserting a fresh key evicts exactly `p₀` and nothing else: the new map is
the old one minus `p₀` plus the fresh entry appended, and the size is back
at `maxSize`.  The strictly-before-`now` condition is forced by the
counterexample: entries last accessed at the insertion's own millisecond are
invisible to `evictLRU`'s strict comparison and nothing is evicted. -/
theorem C4_lru_evicts_exactly_oldest {K D : Type} [DecidableEq K]
    (c : SearchCache K D) (calcSize : D → Nat) (k : K) (d : D) (ttl : Option Nat)
    (now : Nat) (p₀ : K × CacheEntry D)
    (hmem : p₀ ∈ c.cache)
    (hnodup : (c.cache.map Prod.fst).Nodup)
    (hmin : ∀ q ∈ c.cache, q ≠ p₀ → p₀.2.lastAccessed < q.2.lastAccessed)
    (hnow : ∀ q ∈ c.cache, q.2.lastAccessed < now)
    (hfull : c.cache.length = c.maxSize)
    (hnew : ¬ (c.cache.any (fun p => decide (p.1 = k)) = true)) :
    (c.set calcSize k d ttl now).cache =
      (c.cache.filter (fun q => !(decide (q.1 = p₀.1)))) ++
        [(k, ⟨d, now, now, now + c.ttlValue ttl, calcSize d⟩)] ∧
    (c.set calcSize k d ttl now).cache.length = c.maxSize := by
  have hoe : findOldest c.cache none now = some p₀.1 :=
    findOldest_unique_min c.cache p₀ none now hmem hmin (hnow p₀ hmem)
  have hanyfilter :
      (c.cache.filter (fun q => !(decide (q.1 = p₀.1)))).any (fun p => decide (p.1 = k)) =
        false := by
    rw [Bool.eq_false_iff]
    intro hany
    obtain ⟨q, hq, hqk⟩ := List.any_eq_true.mp hany
    exact hnew (List.any_eq_true.mpr ⟨q, (List.mem_filter.mp hq).1, hqk⟩)
  have hmain : (c.set calcSize k d ttl now).cache =
      (c.cache.filter (fun q => !(decide (q.1 = p₀.1)))) ++
        [(k, ⟨d, now, now, now + c.ttlValue ttl, calcSize d⟩)] := by
    unfold SearchCache.set SearchCache.evictLRU
    dsimp only
    rw [if_pos hfull.ge, hoe]
    dsimp only [mapDelete]
    unfold mapSet
    rw [if_neg (by rw [hanyfilter]; exact Bool.false_ne_true)]
  refine ⟨hmain, ?_⟩
  rw [hmain, List.length_append]
  have := filter_ne_key_length c.cache p₀ hnodup hmem
  simp only [List.length_singleton]
  omega

theorem C4_lru_evicts_exactly_oldest_witness :
    ((((⟨[], 2, 300000⟩ : SearchCache String Nat).set (fun _ => 0) "k1" 11 none 1).set
          (fun _ => 0) "k2" 22 none 2).set (fun _ => 0) "k3" 33 none 3).cache =
      ((((⟨[], 2, 300000⟩ : SearchCache String Nat).set (fun _ => 0) "k1" 11 none 1).set
          (fun _ => 0) "k2" 22 none 2).cache.filter
            (fun q => !(decide (q.1 = ("k1", (⟨11, 1, 1, 300001, 0⟩ : CacheEntry Nat)).1)))) ++
        [("k3", ⟨33, 3, 3,
          3 + (((⟨[], 2, 300000⟩ : SearchCache String Nat).set (fun _ => 0) "k1" 11 none
              1).set (fun _ => 0) "k2" 22 none 2).ttlValue none, (fun _ : Nat => 0) 33⟩)] ∧
    ((((⟨[], 2, 300000⟩ : SearchCache String Nat).set (fun _ => 0) "k1" 11 none 1).set
          (fun _ => 0) "k2" 22 none 2).set (fun _ => 0) "k3" 33 none 3).cache.length =
      (((⟨[], 2, 300000⟩ : SearchCache String Nat).set (fun _ => 0) "k1" 11 none 1).set
          (fun _ => 0) "k2" 22 none 2).maxSize :=
  C4_lru_evicts_exactly_oldest
    (((⟨[], 2, 300000⟩ : SearchCache String Nat).set (fun _ => 0) "k1" 11 none 1).set
      (fun _ => 0) "k2" 22 none 2)
    (fun _ => 0) "k3" 33 none 3 ("k1", ⟨11, 1, 1, 300001, 0⟩)
    (by decide) (by decide) (by decide) (by decide) (by decide) (by decide)

/-- Claim C5: a provider whose retry counter starts at zero and whose
`search` fails with a retryable error on every attempt is invoked exactly
`1 + maxRetries = 4` times in one aggregation call; the inter-attempt delays
are `min(1000 * 2^i, 10000)` where `i` is the provider's retry counter at
the moment the delay is computed (before that retry attempt is recorded),
concretely `[1000, 2000, 4000]`, which is monotonically non-decreasing and
below the 10000 ms cap; the provider's slot finally rejects. -/
theorem C5_retry_bound_and_backoff {D : Type} (adapter : AdapterSpec D)
    (calcSize : D → Nat) (engine query language : String)
    (cache : SearchCache String D) (eh : ErrorHandlerState) (now : Nat)
    (hrl : adapter.checkRateLimit = none) (hav : adapter.isAvailable = none)
    (herr : ∀ m, ∃ err, adapter.search m = .error err ∧
      classifyError err ∈ ([.network, .timeout, .api] : List ErrType))
    (ha : eh.getRetryAttempts engine = 0) (hm : eh.maxRetries = 3)
    (hmiss : (cache.get (SearchCache.generateCacheKey engine query language) now).1 = none) :
    ((searchEngineWithErrorHandling adapter calcSize engine query language now
        eh.maxRetries 0 cache eh).events.countP (fun ev => match ev with
      | .providerSearch en _ => decide (en = engine)
      | _ => false) = 1 + eh.maxRetries) ∧
    ((searchEngineWithErrorHandling adapter calcSize engine query language now
        eh.maxRetries 0 cache eh).events.filterMap (fun ev => match ev with
      | .retryWait en delay => if en = engine then some delay else none
      | _ => none) = (List.range eh.maxRetries).map (fun i => min (1000 * 2 ^ i) 10000)) ∧
    ((searchEngineWithErrorHandling adapter calcSize engine query language now
        eh.maxRetries 0 cache eh).events.filterMap (fun ev => match ev with
      | .retryWait en delay => if en = engine then some delay else none
      | _ => none) = [1000, 2000, 4000]) ∧
    List.Chain' (· ≤ ·)
      ((searchEngineWithErrorHandling adapter calcSize engine query language now
        eh.maxRetries 0 cache eh).events.filterMap (fun ev => match ev with
      | .retryWait en delay => if en = engine then some delay else none
      | _ => none)) ∧
    (searchEngineWithErrorHandling adapter calcSize engine query language now
      eh.maxRetries 0 cache eh).desc.status = "rejected" := by
  have h := sewehFail_loop adapter calcSize engine query language now hrl hav herr
    3 eh.maxRetries 0 cache eh (by omega) (by omega) hmiss
  have hdelays : (searchEngineWithErrorHandling adapter calcSize engine query language now
      eh.maxRetries 0 cache eh).events.filterMap (fun ev => match ev with
    | .retryWait en delay => if en = engine then some delay else none
    | _ => none) = [1000, 2000, 4000] := by
    rw [h.2.1, ha]
    decide
  refine ⟨?_, ?_, hdelays, ?_, h.2.2.1⟩
  · rw [h.1, hm]
  · rw [hdelays, hm]
    decide
  · rw [hdelays]
    norm_num [List.chain'_cons]

theorem C5_retry_bound_and_backoff_witness :
    ((searchEngineWithErrorHandling alwaysFails (fun _ => 0) "a" "cats" "en" 0
        ErrorHandlerState.new.maxRetries 0 SearchCache.new
        ErrorHandlerState.new).events.countP (fun ev => match ev with
      | .providerSearch en _ => decide (en = "a")
      | _ => false) = 1 + ErrorHandlerState.new.maxRetries) ∧
    ((searchEngineWithErrorHandling alwaysFails (fun _ => 0) "a" "cats" "en" 0
        ErrorHandlerState.new.maxRetries 0 SearchCache.new
        ErrorHandlerState.new).events.filterMap (fun ev => match ev with
      | .retryWait en delay => if en = "a" then some delay else none
      | _ => none) =
        (List.range ErrorHandlerState.new.maxRetries).map
          (fun i => min (1000 * 2 ^ i) 10000)) ∧
    ((searchEngineWithErrorHandling alwaysFails (fun _ => 0) "a" "cats" "en" 0
        ErrorHandlerState.new.maxRetries 0 SearchCache.new
        ErrorHandlerState.new).events.filterMap (fun ev => match ev with
      | .retryWait en delay => if en = "a" then some delay else none
      | _ => none) = [1000, 2000, 4000]) ∧
    List.Chain' (· ≤ ·)
      ((searchEngineWithErrorHandling alwaysFails (fun _ => 0) "a" "cats" "en" 0
        ErrorHandlerState.new.maxRetries 0 SearchCache.new
        ErrorHandlerState.new).events.filterMap (fun ev => match ev with
      | .retryWait en delay => if en = "a" then some delay else none
      | _ => none)) ∧
    (searchEngineWithErrorHandling alwaysFails (fun _ => 0) "a" "cats" "en" 0
      ErrorHandlerState.new.maxRetries 0 SearchCache.new
      ErrorHandlerState.new).desc.status = "rejected" :=
  C5_retry_bound_and_backoff alwaysFails (fun _ => 0) "a" "cats" "en" SearchCache.new
    ErrorHandlerState.new 0 rfl rfl (fun m => ⟨netError, rfl, by decide⟩) (by decide) rfl
    (by decide)

/-- Claim C6 is false as stated: after an aggregation call in which provider
`a` exhausted its retries, the counter stands at 3 — not 0 — and a new
aggregation call for the same provider starts with it still at 3 (nothing in
`searchAll` resets it), so the new call performs exactly one provider attempt
instead of a fresh retry cycle. -/
theorem C6_fresh_call_reset_counterexample :
    ((searchAll [("a", alwaysFails)] (fun _ => 0) "cats" "en" SearchCache.new
        ErrorHandlerState.new 0 0).2.2.1.getRetryAttempts "a" = 3) ∧
    ¬ ((searchAll [("a", alwaysFails)] (fun _ => 0) "cats" "en" SearchCache.new
        ErrorHandlerState.new 0 0).2.2.1.getRetryAttempts "a" = 0) ∧
    ((searchAll [("a", alwaysFails)] (fun _ => 0) "cats" "en"
        (searchAll [("a", alwaysFails)] (fun _ => 0) "cats" "en" SearchCache.new
          ErrorHandlerState.new 0 0).2.1
        (searchAll [("a", alwaysFails)] (fun _ => 0) "cats" "en" SearchCache.new
          ErrorHandlerState.new 0 0).2.2.1 0 0).2.2.2.countP
      (fun ev => match ev with
        | .providerSearch "a" _ => true
        | _ => false) = 1) := by
  refine ⟨by decide, by decide, by decide⟩

/-- Claim C6 (amended): the per-provider retry counter is reset to zero on
that provider's eventual success (the success path calls
`resetRetryAttempts`); it is NOT reset at the start of a fresh aggregation
call — counters persist across calls, so after a call that exhausted the
retries the next call for that provider starts with the counter at
`maxRetries` and performs a single attempt with no retry. -/
theorem C6_reset_on_success_only {D : Type} (adapter : AdapterSpec D)
    (calcSize : D → Nat) (engine query language : String)
    (cache : SearchCache String D) (eh : ErrorHandlerState) (now gas n : Nat) (d : D)
    (hmiss : (cache.get (SearchCache.generateCacheKey engine query language) now).1 = none)
    (hrlOk : (match adapter.checkRateLimit with | some f => f n | none => true) = true)
    (havOk : (match adapter.isAvailable with | some f => f n | none => true) = true)
    (hok : adapter.search n = .ok d) :
    ((searchEngineWithErrorHandling adapter calcSize engine query language now gas n
        cache eh).eh.getRetryAttempts engine = 0) ∧
    ((searchAll [("a", alwaysFails)] (fun _ => 0) "cats" "en"
        (searchAll [("a", alwaysFails)] (fun _ => 0) "cats" "en" SearchCache.new
          ErrorHandlerState.new 0 0).2.1
        (searchAll [("a", alwaysFails)] (fun _ => 0) "cats" "en" SearchCache.new
          ErrorHandlerState.new 0 0).2.2.1 0 0).2.2.1.getRetryAttempts "a" = 3) := by
  constructor
  · rw [searchEngineWithErrorHandling]
    simp [hmiss, hrlOk, havOk, hok, resetRetryAttempts_getRetryAttempts]
  · decide

theorem C6_reset_on_success_only_witness :
    ((searchEngineWithErrorHandling alwaysSucceeds (fun _ => 0) "a" "cats" "en" 0 3 0
        SearchCache.new ⟨[], 100, [("a", 2)], 3⟩).eh.getRetryAttempts "a" = 0) ∧
    ((searchAll [("a", alwaysFails)] (fun _ => 0) "cats" "en"
        (searchAll [("a", alwaysFails)] (fun _ => 0) "cats" "en" SearchCache.new
          ErrorHandlerState.new 0 0).2.1
        (searchAll [("a", alwaysFails)] (fun _ => 0) "cats" "en" SearchCache.new
          ErrorHandlerState.new 0 0).2.2.1 0 0).2.2.1.getRetryAttempts "a" = 3) :=
  C6_reset_on_success_only alwaysSucceeds (fun _ => 0) "a" "cats" "en" SearchCache.new
    ⟨[], 100, [("a", 2)], 3⟩ 0 3 0 42 (by decide) rfl rfl rfl

/-- Claim C9 is false in its classification part: a `false` from
`checkRateLimit()` does short-circuit the attempt without invoking `search`
and without consuming a retry slot, but the synthetic error is classified as
`general` (the catch-all), not as the platform-block kind (`cors`, the code
tag for the spec's `unavailable`). -/
theorem C9_unavailable_classified_general_counterexample :
    ((searchEngineWithErrorHandling rateLimited (fun _ => 0) "a" "cats" "en" 0 3 0
        SearchCache.new ErrorHandlerState.new).desc.reason.map ErrorInfo.type =
      some ErrType.general) ∧
    ErrType.general ≠ ErrType.cors ∧
    ((searchEngineWithErrorHandling rateLimited (fun _ => 0) "a" "cats" "en" 0 3 0
        SearchCache.new ErrorHandlerState.new).events.countP (fun ev => match ev with
      | .providerSearch _ _ => true
      | _ => false) = 0) := by
  refine ⟨by decide, by decide, by decide⟩

/-- Claim C9 (amended): if `checkRateLimit()` (or, when it passes,
`isAvailable()`) reports `false` at the start of a provider's attempt, the
coordinator does not invoke `search` (the trace holds only the cache probe),
finalizes the attempt as a non-retryable rejection classified `general` (the
catch-all kind, not `unavailable`/`cors`), and consumes no retry slot (the
retry counters are unchanged). -/
theorem C9_blocked_attempt_general_no_slot {D : Type} (adapter : AdapterSpec D)
    (calcSize : D → Nat) (engine query language : String)
    (cache : SearchCache String D) (eh : ErrorHandlerState) (now gas n : Nat)
    (hmiss : (cache.get (SearchCache.generateCacheKey engine query language) now).1 = none)
    (hblock :
      ((match adapter.checkRateLimit with | some f => f n | none => true) = false) ∨
      ((match adapter.checkRateLimit with | some f => f n | none => true) = true ∧
       (match adapter.isAvailable with | some f => f n | none => true) = false)) :
    (searchEngineWithErrorHandling adapter calcSize engine query language now gas n
      cache eh).desc.status = "rejected" ∧
    (searchEngineWithErrorHandling adapter calcSize engine query language now gas n
      cache eh).desc.value = none ∧
    ((searchEngineWithErrorHandling adapter calcSize engine query language now gas n
      cache eh).desc.reason.map ErrorInfo.type = some ErrType.general) ∧
    ((searchEngineWithErrorHandling adapter calcSize engine query language now gas n
      cache eh).desc.reason.map ErrorInfo.shouldRetry = some false) ∧
    (searchEngineWithErrorHandling adapter calcSize engine query language now gas n
      cache eh).events =
        [Event.cacheLookup (SearchCache.generateCacheKey engine query language)] ∧
    (searchEngineWithErrorHandling adapter calcSize engine query language now gas n
      cache eh).eh.retryAttempts = eh.retryAttempts ∧
    (searchEngineWithErrorHandling adapter calcSize engine query language now gas n
      cache eh).cache =
        (cache.get (SearchCache.generateCacheKey engine query language) now).2 := by
  have hclRL : classifyError rateLimitError = ErrType.general := by decide
  have hclUA : classifyError unavailableError = ErrType.general := by decide
  rcases hblock with hrlF | ⟨hrlT, havF⟩
  · have hsr : (eh.handleEngineError rateLimitError engine).1.shouldRetry = false := by
      rw [handleEngineError_shouldRetry, hclRL, shouldRetryB_general]
    have hbody : searchEngineWithErrorHandling adapter calcSize engine query language now
        gas n cache eh =
        ⟨⟨engine, "rejected", none, some (eh.handleEngineError rateLimitError engine).1⟩,
          (cache.get (SearchCache.generateCacheKey engine query language) now).2,
          (eh.handleEngineError rateLimitError engine).2,
          [Event.cacheLookup (SearchCache.generateCacheKey engine query language)]⟩ := by
      rw [searchEngineWithErrorHandling]
      simp [hmiss, hrlF, hsr]
    rw [hbody]
    refine ⟨rfl, rfl, ?_, ?_, rfl, ?_, rfl⟩
    · simp [handleEngineError_type, hclRL]
    · simp [hsr]
    · exact handleEngineError_retryAttempts eh rateLimitError engine
  · have hsr : (eh.handleEngineError unavailableError engine).1.shouldRetry = false := by
      rw [handleEngineError_shouldRetry, hclUA, shouldRetryB_general]
    have hbody : searchEngineWithErrorHandling adapter calcSize engine query language now
        gas n cache eh =
        ⟨⟨engine, "rejected", none, some (eh.handleEngineError unavailableError engine).1⟩,
          (cache.get (SearchCache.generateCacheKey engine query language) now).2,
          (eh.handleEngineError unavailableError engine).2,
          [Event.cacheLookup (SearchCache.generateCacheKey engine query language)]⟩ := by
      rw [searchEngineWithErrorHandling]
      simp [hmiss, hrlT, havF, hsr]
    rw [hbody]
    refine ⟨rfl, rfl, ?_, ?_, rfl, ?_, rfl⟩
    · simp [handleEngineError_type, hclUA]
    · simp [hsr]
    · exact handleEngineError_retryAttempts eh unavailableError engine

theorem C9_blocked_attempt_general_no_slot_witness :
    (searchEngineWithErrorHandling rateLimited (fun _ => 0) "a" "cats" "en" 0 3 0
      SearchCache.new ErrorHandlerState.new).desc.status = "rejected" ∧
    (searchEngineWithErrorHandling rateLimited (fun _ => 0) "a" "cats" "en" 0 3 0
      SearchCache.new ErrorHandlerState.new).desc.value = none ∧
    ((searchEngineWithErrorHandling rateLimited (fun _ => 0) "a" "cats" "en" 0 3 0
      SearchCache.new ErrorHandlerState.new).desc.reason.map ErrorInfo.type =
        some ErrType.general) ∧
    ((searchEngineWithErrorHandling rateLimited (fun _ => 0) "a" "cats" "en" 0 3 0
      SearchCache.new ErrorHandlerState.new).desc.reason.map ErrorInfo.shouldRetry =
        some false) ∧
    (searchEngineWithErrorHandling rateLimited (fun _ => 0) "a" "cats" "en" 0 3 0
      SearchCache.new ErrorHandlerState.new).events =
        [Event.cacheLookup (SearchCache.generateCacheKey "a" "cats" "en")] ∧
    (searchEngineWithErrorHandling rateLimited (fun _ => 0) "a" "cats" "en" 0 3 0
      SearchCache.new ErrorHandlerState.new).eh.retryAttempts =
        ErrorHandlerState.new.retryAttempts ∧
    (searchEngineWithErrorHandling rateLimited (fun _ => 0) "a" "cats" "en" 0 3 0
      SearchCache.new ErrorHandlerState.new).cache =
        (SearchCache.new.get (SearchCache.generateCacheKey "a" "cats" "en") 0).2 :=
  C9_blocked_attempt_general_no_slot rateLimited (fun _ => 0) "a" "cats" "en"
    SearchCache.new ErrorHandlerState.new 0 3 0 (by decide) (Or.inl rfl)

/-- Claim C1 is false on the code (code bug): with provider `a` failing
retryably on every attempt (its retries are exhausted: 4 search invocations,
final settle descriptor `rejected`) and provider `b` succeeding, `searchAll`
does return normally — but because `searchEngineWithErrorHandling` resolves
(never rejects) and `Promise.allSettled` wraps each settle descriptor in a
fulfilled outcome, `processSearchResults` takes every provider's branch for
success: provider `a`'s slot gets status `"success"` (with the rejected
descriptor stored as its `data`) and the summary reads
`successful = 2, failed = 0` instead of the claimed
`perProvider.a.status = error`, `failed = 1, succeeded = 1`. -/
theorem C1_failed_provider_counted_success :
    ((searchAll [("a", alwaysFails), ("b", alwaysSucceeds)] (fun _ => 0) "cats" "en"
        SearchCache.new ErrorHandlerState.new 0 0).1.toOption.map
      (fun p => p.summary) = some ⟨2, 2, 0, 0⟩) ∧
    ((searchAll [("a", alwaysFails), ("b", alwaysSucceeds)] (fun _ => 0) "cats" "en"
        SearchCache.new ErrorHandlerState.new 0 0).1.toOption.map
      (fun p => (mapGet p.engines (some "a")).map EngineSlot.status) =
        some (some "success")) ∧
    ((searchAll [("a", alwaysFails), ("b", alwaysSucceeds)] (fun _ => 0) "cats" "en"
        SearchCache.new ErrorHandlerState.new 0 0).1.toOption.map
      (fun p => (mapGet p.engines (some "b")).map EngineSlot.status) =
        some (some "success")) ∧
    ((searchAll [("a", alwaysFails), ("b", alwaysSucceeds)] (fun _ => 0) "cats" "en"
        SearchCache.new ErrorHandlerState.new 0 0).1.toOption.map
      (fun p => (mapGet p.engines (some "a")).map
        (fun s => s.data.map Descriptor.status)) = some (some (some "rejected"))) ∧
    ((searchAll [("a", alwaysFails), ("b", alwaysSucceeds)] (fun _ => 0) "cats" "en"
        SearchCache.new ErrorHandlerState.new 0 0).2.2.2.countP
      (fun ev => match ev with
        | .providerSearch "a" _ => true
        | _ => false) = 4) := by
  refine ⟨by decide, by decide, by decide, by decide, by decide⟩

/-- Claim C8 is false in its `data` part (same code bug as C1): with the
cache pre-seeded for `(a, en, "cats")` and an unexpired entry, a new
`aggregate("cats", "en")` never invokes provider `a`'s `search` (the trace
holds only the cache probe — no `providerSearch`, no `cacheStore`) and the
seeded payload `42` is what comes back for the provider; but the slot's
`data` field holds the settle descriptor `{engine, status: 'fulfilled',
value: 42}` wrapping the payload, not the payload itself as the claim
states. -/
theorem C8_cache_hit_returns_wrapped_payload :
    ((searchAll [("a", (⟨none, none, fun _ => .ok 99⟩ : AdapterSpec Nat))] (fun _ => 0)
        "cats" "en"
        ((SearchCache.new : SearchCache String Nat).set (fun _ => 0)
          (SearchCache.generateCacheKey "a" "cats" "en") 42 none 0)
        ErrorHandlerState.new 0 0).2.2.2 =
      [Event.cacheLookup (SearchCache.generateCacheKey "a" "cats" "en")]) ∧
    ((searchAll [("a", (⟨none, none, fun _ => .ok 99⟩ : AdapterSpec Nat))] (fun _ => 0)
        "cats" "en"
        ((SearchCache.new : SearchCache String Nat).set (fun _ => 0)
          (SearchCache.generateCacheKey "a" "cats" "en") 42 none 0)
        ErrorHandlerState.new 0 0).1.toOption.map
      (fun p => (mapGet p.engines (some "a")).map EngineSlot.data) =
        some (some (some ⟨"a", "fulfilled", some 42, none⟩))) := by
  refine ⟨by decide, by decide⟩
